import Mathlib

/-!
Verification of the rating engine and match-completion flow of the
PlanarStandardMTG backend.

The rating engine lives in `src/utils/elo.ts` (`getExpectedScore`,
`calculateEloChange`, `calculateMatchWins`, `getNewUserElo`); the
match-completion HTTP handler lives in `src/api/routes/matches.ts`.

Modelling conventions:
- JavaScript `number` arithmetic is modelled by real arithmetic (`ℝ`).
  Ratings handed to `calculateEloChange` are integers (`ℤ`), as in the
  callers, and are coerced to `ℝ` inside the formulae.
- JavaScript `Math.round x` rounds half-way cases toward positive
  infinity; it is modelled as `⌊x + 1/2⌋` (`jsRound`).
- JavaScript `Math.max(0, n)` on integers is `max 0 n` on `ℤ`.
- The Prisma `match` row and the handler's control flow are modelled as a
  pure function from the fetched row (or `none` when absent) to the HTTP
  response together with the list of database writes the handler issues.
-/

/-- Result record of `calculateEloChange` (interface `EloChangeResult` in
`src/utils/elo.ts`). -/
structure EloChangeResult where
  player1NewElo : ℤ
  player2NewElo : ℤ
  player1Change : ℤ
  player2Change : ℤ
  deriving Repr, DecidableEq

/-- `const K_FACTOR = 32` — standard K-factor for ELO. -/
def K_FACTOR : ℝ := 32

/-- JavaScript `Math.round`: nearest integer, half-way cases toward `+∞`. -/
noncomputable def jsRound (x : ℝ) : ℤ := ⌊x + 1 / 2⌋

/-- `getExpectedScore(playerElo, opponentElo)` from `src/utils/elo.ts`:
`1 / (1 + Math.pow(10, (opponentElo - playerElo) / 400))`. -/
noncomputable def getExpectedScore (playerElo opponentElo : ℝ) : ℝ :=
  1 / (1 + (10 : ℝ) ^ ((opponentElo - playerElo) / 400))

/-- `calculateEloChange(player1Elo, player2Elo, player1Won)` from
`src/utils/elo.ts`. -/
noncomputable def calculateEloChange (player1Elo player2Elo : ℤ)
    (player1Won : Bool) : EloChangeResult :=
  let expected1 := getExpectedScore player1Elo player2Elo
  let expected2 := getExpectedScore player2Elo player1Elo
  -- Score: 1 for win, 0 for loss
  let score1 : ℝ := if player1Won then 1 else 0
  let score2 : ℝ := if player1Won then 0 else 1
  -- Calculate rating changes
  let change1 := jsRound (K_FACTOR * (score1 - expected1))
  let change2 := jsRound (K_FACTOR * (score2 - expected2))
  { player1NewElo := max 0 (player1Elo + change1)  -- ELO does not go below 0
    player2NewElo := max 0 (player2Elo + change2)
    player1Change := change1
    player2Change := change2 }

/-- One element of the `matches` argument of `calculateMatchWins`:
`{ winner: string | null; player1Id: string; player2Id: string }`. -/
structure MatchRecord where
  winner : Option String
  player1Id : String
  player2Id : String
  deriving Repr, DecidableEq

/-- `calculateMatchWins(matches, userId)` from `src/utils/elo.ts`:
`matches.filter((match) => match.winner === userId).length`.
(`===` between `string | null` and `string` is false on `null`; `matches`
is renamed `ms` because `matches` is a Lean keyword.) -/
def calculateMatchWins (ms : List MatchRecord) (userId : String) : ℕ :=
  (ms.filter (fun m => m.winner == some userId)).length

/-- `getNewUserElo()` from `src/utils/elo.ts`: the starting rating. -/
def getNewUserElo : ℤ := 1600

/-- Round-half-away-from-zero, the rounding rule named by the spec:
`sign x * ⌊|x| + 1/2⌋`. -/
noncomputable def roundHalfAway (x : ℝ) : ℤ :=
  if 0 ≤ x then ⌊x + 1 / 2⌋ else -⌊-x + 1 / 2⌋

section Handler

/-- The fetched `match` row (with its two included players' ratings) as seen
by the completion handler in `src/api/routes/matches.ts`. `completedAt` is
`none` for a row whose completion timestamp is SQL `NULL`. -/
structure MatchRow where
  id : String
  player1Id : String
  player2Id : String
  player1Elo : ℤ
  player2Elo : ℤ
  winner : Option String
  completedAt : Option ℕ
  deriving Repr, DecidableEq

/-- A database write issued by the completion handler. -/
inductive DbWrite where
  /-- `prisma.match.update` setting winner, both deltas and `completedAt`. -/
  | matchUpdate (matchId winnerId : String) (p1Change p2Change : ℤ)
  /-- `prisma.user.update` setting a player's `elo`. -/
  | userEloUpdate (userId : String) (newElo : ℤ)
  deriving Repr, DecidableEq

/-- The HTTP reply of the completion handler: status code and, for errors,
the error message sent in the body. -/
structure HandlerReply where
  status : ℕ
  errorMessage : Option String
  deriving Repr, DecidableEq

/-- The `POST /matches/:matchId/complete` handler of
`src/api/routes/matches.ts`, as a pure function of the fetched row. The
rating engine is a parameter so that theorems can quantify over it: a reply
that is the same for every `engine` was produced without invoking the
engine. Guards appear in source order: missing match (404), requester not a
participant (403), already completed (400), winner not a participant (400);
otherwise the engine runs and the handler writes the match row and both
players' ratings. -/
def completeMatchHandler (engine : ℤ → ℤ → Bool → EloChangeResult)
    (userId : String) (matchRow : Option MatchRow) (winnerId : String) :
    HandlerReply × List DbWrite :=
  match matchRow with
  | none => (⟨404, some "Match not found"⟩, [])
  | some m =>
    if m.player1Id ≠ userId ∧ m.player2Id ≠ userId then
      (⟨403, some "Unauthorized to complete this match"⟩, [])
    else if m.completedAt.isSome then
      (⟨400, some "Match already completed"⟩, [])
    else if winnerId ≠ m.player1Id ∧ winnerId ≠ m.player2Id then
      (⟨400, some "Winner must be one of the match players"⟩, [])
    else
      let player1Won := winnerId == m.player1Id
      let eloResult := engine m.player1Elo m.player2Elo player1Won
      (⟨200, none⟩,
        [DbWrite.matchUpdate m.id winnerId
            eloResult.player1Change eloResult.player2Change,
         DbWrite.userEloUpdate m.player1Id eloResult.player1NewElo,
         DbWrite.userEloUpdate m.player2Id eloResult.player2NewElo])

/-- The deployed handler: `completeMatchHandler` applied to the real rating
engine `calculateEloChange`. -/
noncomputable def completeMatch (userId : String) (matchRow : Option MatchRow)
    (winnerId : String) : HandlerReply × List DbWrite :=
  completeMatchHandler calculateEloChange userId matchRow winnerId

end Handler

section EloLemmas

lemma ten_rpow_pos (t : ℝ) : 0 < (10 : ℝ) ^ t :=
  Real.rpow_pos_of_pos (by norm_num) t

lemma getExpectedScore_pos (a b : ℝ) : 0 < getExpectedScore a b := by
  unfold getExpectedScore
  have := ten_rpow_pos ((b - a) / 400)
  positivity

lemma getExpectedScore_lt_one (a b : ℝ) : getExpectedScore a b < 1 := by
  unfold getExpectedScore
  have h := ten_rpow_pos ((b - a) / 400)
  rw [div_lt_one (by linarith)]
  linarith

lemma getExpectedScore_add (a b : ℝ) :
    getExpectedScore a b + getExpectedScore b a = 1 := by
  unfold getExpectedScore
  have h1 : (a - b) / 400 = -((b - a) / 400) := by ring
  rw [h1, Real.rpow_neg (by norm_num : (0:ℝ) ≤ 10)]
  have hu : 0 < (10 : ℝ) ^ ((b - a) / 400) := ten_rpow_pos _
  have h2 : (1 : ℝ) + (10 : ℝ) ^ ((b - a) / 400) ≠ 0 := by linarith
  field_simp
  ring

lemma getExpectedScore_self (a : ℝ) : getExpectedScore a a = 1 / 2 := by
  unfold getExpectedScore
  rw [sub_self, zero_div, Real.rpow_zero]
  norm_num

lemma jsRound_nonneg {x : ℝ} (hx : 0 ≤ x) : 0 ≤ jsRound x := by
  unfold jsRound
  rw [Int.floor_nonneg]
  linarith

lemma jsRound_nonpos {x : ℝ} (hx : x < 1 / 2) : jsRound x ≤ 0 := by
  unfold jsRound
  have h : ⌊x + 1 / 2⌋ < 1 := by
    rw [show (1 : ℤ) = ((1 : ℤ) : ℤ) from rfl, Int.floor_lt]
    push_cast
    linarith
  omega

lemma jsRound_mono {x y : ℝ} (h : x ≤ y) : jsRound x ≤ jsRound y :=
  Int.floor_mono (by linarith)

lemma jsRound_le_of_lt {x : ℝ} {n : ℤ} (h : x < (n : ℝ) + 1 / 2) :
    jsRound x ≤ n := by
  unfold jsRound
  have : ⌊x + 1 / 2⌋ < n + 1 := by
    rw [Int.floor_lt]
    push_cast
    linarith
  omega

lemma le_jsRound_of_le {x : ℝ} {n : ℤ} (h : (n : ℝ) - 1 / 2 ≤ x) :
    n ≤ jsRound x := by
  unfold jsRound
  rw [Int.le_floor]
  linarith

/-- `jsRound x + jsRound (-x)` is `0` or `1` (it is `1` exactly when `x` is a
half-integer, where both half-way cases round up). -/
lemma jsRound_add_jsRound_neg (x : ℝ) :
    jsRound x + jsRound (-x) = 0 ∨ jsRound x + jsRound (-x) = 1 := by
  unfold jsRound
  have h1 : -x + 1 / 2 = -(x + 1 / 2) + ((1 : ℤ) : ℝ) := by push_cast; ring
  rw [h1, Int.floor_add_int, Int.floor_neg]
  have h2 := Int.ceil_le_floor_add_one (x + 1 / 2)
  have h3 := Int.floor_le_ceil (x + 1 / 2)
  omega

lemma jsRound_eq_roundHalfAway_of_nonneg {x : ℝ} (hx : 0 ≤ x) :
    jsRound x = roundHalfAway x := by
  unfold jsRound roundHalfAway
  rw [if_pos hx]

/-- Away from exact half-integers, JavaScript rounding agrees with
round-half-away-from-zero. -/
lemma jsRound_eq_roundHalfAway_of_not_half {x : ℝ}
    (hx : ∀ z : ℤ, x + 1 / 2 ≠ (z : ℝ)) :
    jsRound x = roundHalfAway x := by
  unfold jsRound roundHalfAway
  by_cases h0 : 0 ≤ x
  · rw [if_pos h0]
  · rw [if_neg h0]
    have h1 : -x + 1 / 2 = -(x + 1 / 2) + ((1 : ℤ) : ℝ) := by push_cast; ring
    rw [h1, Int.floor_add_int, Int.floor_neg]
    have h2 := Int.ceil_le_floor_add_one (x + 1 / 2)
    have h3 := Int.floor_le_ceil (x + 1 / 2)
    rcases lt_or_eq_of_le h3 with h4 | h4
    · omega
    · exfalso
      apply hx ⌊x + 1 / 2⌋
      have h5 := Int.floor_le (x + 1 / 2)
      have h6 := Int.le_ceil (x + 1 / 2)
      rw [← h4] at h6
      linarith

/-- An odd integer `a` raised to any power stays odd, so it cannot equal an
even multiple; helper for `getExpectedScore_ne_odd_div_64`. -/
lemma odd_pow_ne_even_mul {a b : ℤ} (n : ℕ) (ha : Odd a)
    (hn : n ≠ 0) : a ^ 400 ≠ 10 ^ n * b ^ 400 := by
  intro h
  have heven : Even ((10 : ℤ) ^ n * b ^ 400) :=
    (Int.even_pow.mpr ⟨by decide, hn⟩).mul_right _
  rw [← h] at heven
  exact (Int.not_odd_iff_even.mpr heven) ha.pow

/-- Two positive integers with equal 400th powers are equal. -/
lemma eq_of_pow400_eq {a b : ℤ} (ha : 0 < a) (hb : 0 < b)
    (h : a ^ 400 = b ^ 400) : a = b := by
  rcases lt_trichotomy a b with hlt | heq | hgt
  · have := pow_lt_pow_left₀ hlt ha.le (n := 400) (by norm_num)
    omega
  · exact heq
  · have := pow_lt_pow_left₀ hgt hb.le (n := 400) (by norm_num)
    omega

/-- The expected score of two INTEGER ratings is never an odd multiple of
`1/64`.  Consequently `32 * (score - expectedScore)` is never an exact
half-integer, so JavaScript's round-half-up and round-half-away-from-zero
agree on every value `calculateEloChange` actually rounds. -/
lemma getExpectedScore_ne_odd_div_64 (p1 p2 : ℤ) {c : ℤ} (hc : Odd c) :
    getExpectedScore (p1 : ℝ) (p2 : ℝ) ≠ (c : ℝ) / 64 := by
  intro h
  have hu0 : (0 : ℝ) < (10 : ℝ) ^ (((p2 : ℝ) - (p1 : ℝ)) / 400) :=
    ten_rpow_pos _
  set u : ℝ := (10 : ℝ) ^ (((p2 : ℝ) - (p1 : ℝ)) / 400) with hu_def
  have he : getExpectedScore (p1 : ℝ) (p2 : ℝ) = 1 / (1 + u) := rfl
  have h1u : (0 : ℝ) < 1 + u := by linarith
  -- bounds on c from 0 < e < 1
  have hepos : (0 : ℝ) < (c : ℝ) / 64 := h ▸ getExpectedScore_pos _ _
  have helt : (c : ℝ) / 64 < 1 := h ▸ getExpectedScore_lt_one _ _
  have hc0 : 0 < c := by
    have : (0 : ℝ) < (c : ℝ) := by linarith
    exact_mod_cast this
  have hc64 : c < 64 := by
    have : (c : ℝ) < 64 := by linarith
    exact_mod_cast this
  have hcR : (0 : ℝ) < (c : ℝ) := by exact_mod_cast hc0
  -- solve for u : u = (64 - c) / c
  have h2 : 1 / (1 + u) = (c : ℝ) / 64 := by rw [← he]; exact h
  have hu_eq : u = ((64 - c : ℤ) : ℝ) / ((c : ℤ) : ℝ) := by
    field_simp at h2 ⊢
    nlinarith [h2]
  -- raise to the 400th power: u ^ 400 = 10 ^ (p2 - p1)
  have hk : u ^ (400 : ℕ) = (10 : ℝ) ^ (p2 - p1 : ℤ) := by
    rw [hu_def, ← Real.rpow_natCast ((10 : ℝ) ^ (((p2 : ℝ) - (p1 : ℝ)) / 400)) 400,
      ← Real.rpow_mul (by norm_num : (0 : ℝ) ≤ 10)]
    have harg : ((p2 : ℝ) - (p1 : ℝ)) / 400 * ((400 : ℕ) : ℝ)
        = ((p2 - p1 : ℤ) : ℝ) := by push_cast; ring
    rw [harg, Real.rpow_intCast]
  have hab : (((64 - c : ℤ) : ℝ) / ((c : ℤ) : ℝ)) ^ (400 : ℕ)
      = (10 : ℝ) ^ (p2 - p1 : ℤ) := by rw [← hu_eq]; exact hk
  have ha0 : (0 : ℤ) < 64 - c := by omega
  have hodda : Odd (64 - c : ℤ) := Even.sub_odd (by decide) hc
  have haR : (0 : ℝ) < ((64 - c : ℤ) : ℝ) := by exact_mod_cast ha0
  obtain ⟨n, hn | hn⟩ := Int.eq_nat_or_neg (p2 - p1)
  · -- p2 - p1 = n ≥ 0 : (a/b)^400 = 10^n
    rw [hn, zpow_natCast, div_pow,
      div_eq_iff (by positivity : ((c : ℤ) : ℝ) ^ 400 ≠ 0)] at hab
    have hZ : (64 - c : ℤ) ^ 400 = 10 ^ n * c ^ 400 := by exact_mod_cast hab
    rcases Nat.eq_zero_or_pos n with h0 | hpos
    · rw [h0, pow_zero, one_mul] at hZ
      have := eq_of_pow400_eq ha0 hc0 hZ
      obtain ⟨m, hm⟩ := hc
      omega
    · exact odd_pow_ne_even_mul n hodda hpos.ne' hZ
  · -- p2 - p1 = -n : (a/b)^400 = 10^(-n)
    have h10 : ((10 : ℝ) ^ n) ≠ 0 := by positivity
    rw [hn, zpow_neg, zpow_natCast, div_pow,
      div_eq_iff (by positivity : ((c : ℤ) : ℝ) ^ 400 ≠ 0),
      inv_mul_eq_div, eq_div_iff h10] at hab
    have hZ : (64 - c : ℤ) ^ 400 * 10 ^ n = c ^ 400 := by exact_mod_cast hab
    rcases Nat.eq_zero_or_pos n with h0 | hpos
    · rw [h0, pow_zero, mul_one] at hZ
      have := eq_of_pow400_eq ha0 hc0 hZ
      obtain ⟨m, hm⟩ := hc
      omega
    · have heven : Even ((64 - c : ℤ) ^ 400 * 10 ^ n) :=
        (Int.even_pow.mpr ⟨by decide, hpos.ne'⟩).mul_left _
      rw [hZ] at heven
      exact (Int.not_odd_iff_even.mpr heven) hc.pow

/- Projection lemmas: the four fields of `calculateEloChange`, unfolded. -/

lemma player1Change_eq (p1 p2 : ℤ) (won : Bool) :
    (calculateEloChange p1 p2 won).player1Change
      = jsRound (K_FACTOR * ((if won then (1 : ℝ) else 0)
          - getExpectedScore (p1 : ℝ) (p2 : ℝ))) := rfl

lemma player2Change_eq (p1 p2 : ℤ) (won : Bool) :
    (calculateEloChange p1 p2 won).player2Change
      = jsRound (K_FACTOR * ((if won then (0 : ℝ) else 1)
          - getExpectedScore (p2 : ℝ) (p1 : ℝ))) := rfl

lemma player1Change_true (p1 p2 : ℤ) :
    (calculateEloChange p1 p2 true).player1Change
      = jsRound (K_FACTOR * (1 - getExpectedScore (p1 : ℝ) (p2 : ℝ))) := rfl

lemma player2Change_true (p1 p2 : ℤ) :
    (calculateEloChange p1 p2 true).player2Change
      = jsRound (K_FACTOR * (0 - getExpectedScore (p2 : ℝ) (p1 : ℝ))) := rfl

lemma player1Change_false (p1 p2 : ℤ) :
    (calculateEloChange p1 p2 false).player1Change
      = jsRound (K_FACTOR * (0 - getExpectedScore (p1 : ℝ) (p2 : ℝ))) := rfl

lemma player2Change_false (p1 p2 : ℤ) :
    (calculateEloChange p1 p2 false).player2Change
      = jsRound (K_FACTOR * (1 - getExpectedScore (p2 : ℝ) (p1 : ℝ))) := rfl

lemma player1NewElo_eq (p1 p2 : ℤ) (won : Bool) :
    (calculateEloChange p1 p2 won).player1NewElo
      = max 0 (p1 + (calculateEloChange p1 p2 won).player1Change) := rfl

lemma player2NewElo_eq (p1 p2 : ℤ) (won : Bool) :
    (calculateEloChange p1 p2 won).player2NewElo
      = max 0 (p2 + (calculateEloChange p1 p2 won).player2Change) := rfl

/-- The argument `K * (score - e)` always lies strictly between `-32` and
`32` when `score ∈ [0, 1]`. -/
lemma elo_arg_bounds {s : ℝ} (hs0 : 0 ≤ s) (hs1 : s ≤ 1) (a b : ℝ) :
    -32 < K_FACTOR * (s - getExpectedScore a b) ∧
      K_FACTOR * (s - getExpectedScore a b) < 32 := by
  have h1 := getExpectedScore_pos a b
  have h2 := getExpectedScore_lt_one a b
  unfold K_FACTOR
  constructor <;> nlinarith

/-- The loser's rounding argument is never an exact half-integer. -/
lemma loser_arg_not_half (a b : ℤ) (z : ℤ) :
    K_FACTOR * (0 - getExpectedScore (a : ℝ) (b : ℝ)) + 1 / 2 ≠ (z : ℝ) := by
  intro h
  apply getExpectedScore_ne_odd_div_64 a b (c := 1 - 2 * z) ⟨-z, by ring⟩
  unfold K_FACTOR at h
  push_cast
  linarith

lemma loserChange_eq_roundHalfAway (a b : ℤ) :
    jsRound (K_FACTOR * (0 - getExpectedScore (a : ℝ) (b : ℝ)))
      = roundHalfAway (K_FACTOR * (0 - getExpectedScore (a : ℝ) (b : ℝ))) :=
  jsRound_eq_roundHalfAway_of_not_half (loser_arg_not_half a b)

lemma winnerChange_eq_roundHalfAway (a b : ℤ) :
    jsRound (K_FACTOR * (1 - getExpectedScore (a : ℝ) (b : ℝ)))
      = roundHalfAway (K_FACTOR * (1 - getExpectedScore (a : ℝ) (b : ℝ))) := by
  apply jsRound_eq_roundHalfAway_of_nonneg
  have h := getExpectedScore_lt_one (a : ℝ) (b : ℝ)
  unfold K_FACTOR
  nlinarith

end EloLemmas

/-- When the rating difference is an exact multiple of 400 the transcendental
power collapses to an integer power of ten, making the expected score an
explicit rational. -/
lemma getExpectedScore_of_diff (a b m : ℤ) (h : b - a = 400 * m) :
    getExpectedScore (a : ℝ) (b : ℝ) = 1 / (1 + (10 : ℝ) ^ (m : ℤ)) := by
  unfold getExpectedScore
  have h1 : ((b : ℝ) - (a : ℝ)) / 400 = ((m : ℤ) : ℝ) := by
    have h2 : (b : ℝ) - (a : ℝ) = 400 * ((m : ℤ) : ℝ) := by
      exact_mod_cast h
    rw [h2]
    ring
  rw [h1, Real.rpow_intCast]

/-- The expected score is strictly increasing in the player's own rating. -/
lemma getExpectedScore_strictMono_left {a a' : ℝ} (h : a < a') (b : ℝ) :
    getExpectedScore a b < getExpectedScore a' b := by
  unfold getExpectedScore
  have h1 : (b - a') / 400 < (b - a) / 400 := by linarith
  have h3 : (10 : ℝ) ^ ((b - a') / 400) < (10 : ℝ) ^ ((b - a) / 400) :=
    (Real.rpow_lt_rpow_left_iff (by norm_num)).mpr h1
  have p1 := ten_rpow_pos ((b - a') / 400)
  have p2 := ten_rpow_pos ((b - a) / 400)
  rw [div_lt_div_iff₀ (by linarith) (by linarith)]
  linarith

/-- C1: for every pair of integer ratings and every outcome boolean,
`calculateEloChange` returns `player1NewElo = max 0 (player1Elo +
player1Change)` and `player2NewElo = max 0 (player2Elo + player2Change)`;
in particular neither returned rating is ever negative. -/
theorem newElo_eq_max_zero_add_change (p1 p2 : ℤ) (won : Bool) :
    (calculateEloChange p1 p2 won).player1NewElo
        = max 0 (p1 + (calculateEloChange p1 p2 won).player1Change) ∧
    (calculateEloChange p1 p2 won).player2NewElo
        = max 0 (p2 + (calculateEloChange p1 p2 won).player2Change) ∧
    0 ≤ (calculateEloChange p1 p2 won).player1NewElo ∧
    0 ≤ (calculateEloChange p1 p2 won).player2NewElo :=
  ⟨rfl, rfl, le_max_left _ _, le_max_left _ _⟩

/-- C2: each delta returned by `calculateEloChange` equals
`round(32 * (actualScore - expectedScore))` where the winner scores `1`,
the loser scores `0`, and `round` is standard round-half-away-from-zero.
(The source's `Math.round` rounds half-way cases toward `+∞`; by
`getExpectedScore_ne_odd_div_64` the rounded quantity is never an exact
half-integer for integer ratings, so the two rules coincide on every value
the function rounds.) -/
theorem eloChange_eq_roundHalfAway (p1 p2 : ℤ) (won : Bool) :
    (calculateEloChange p1 p2 won).player1Change
      = roundHalfAway (32 * ((if won then (1 : ℝ) else 0)
          - getExpectedScore (p1 : ℝ) (p2 : ℝ))) ∧
    (calculateEloChange p1 p2 won).player2Change
      = roundHalfAway (32 * ((if won then (0 : ℝ) else 1)
          - getExpectedScore (p2 : ℝ) (p1 : ℝ))) := by
  have hK : K_FACTOR = (32 : ℝ) := rfl
  rw [player1Change_eq, player2Change_eq, ← hK]
  cases won
  · simp only [Bool.false_eq_true, if_false]
    exact ⟨loserChange_eq_roundHalfAway p1 p2, winnerChange_eq_roundHalfAway p2 p1⟩
  · simp only [if_true]
    exact ⟨winnerChange_eq_roundHalfAway p1 p2, loserChange_eq_roundHalfAway p2 p1⟩

/-- C3: the two unrounded deltas `K * (score1 - e1)` and `K * (score2 - e2)`
are exact negatives of each other, and the rounded deltas returned by
`calculateEloChange` sum to `-1`, `0` or `1`. -/
theorem eloChange_zero_sum (p1 p2 : ℤ) (won : Bool) :
    K_FACTOR * ((if won then (0 : ℝ) else 1)
        - getExpectedScore (p2 : ℝ) (p1 : ℝ))
      = -(K_FACTOR * ((if won then (1 : ℝ) else 0)
        - getExpectedScore (p1 : ℝ) (p2 : ℝ))) ∧
    ((calculateEloChange p1 p2 won).player1Change
        + (calculateEloChange p1 p2 won).player2Change = -1 ∨
     (calculateEloChange p1 p2 won).player1Change
        + (calculateEloChange p1 p2 won).player2Change = 0 ∨
     (calculateEloChange p1 p2 won).player1Change
        + (calculateEloChange p1 p2 won).player2Change = 1) := by
  have hsum := getExpectedScore_add (p1 : ℝ) (p2 : ℝ)
  have hneg : K_FACTOR * ((if won then (0 : ℝ) else 1)
        - getExpectedScore (p2 : ℝ) (p1 : ℝ))
      = -(K_FACTOR * ((if won then (1 : ℝ) else 0)
        - getExpectedScore (p1 : ℝ) (p2 : ℝ))) := by
    cases won <;> simp only [if_true, if_false, Bool.false_eq_true] <;>
      linear_combination (-K_FACTOR) * hsum
  refine ⟨hneg, ?_⟩
  rw [player1Change_eq, player2Change_eq, hneg]
  rcases jsRound_add_jsRound_neg (K_FACTOR * ((if won then (1 : ℝ) else 0)
      - getExpectedScore (p1 : ℝ) (p2 : ℝ))) with h | h
  · exact Or.inr (Or.inl h)
  · exact Or.inr (Or.inr h)

/-- C4: `expectedScore(a, b) + expectedScore(b, a) = 1` for all real
ratings, and for equal ratings the expected score is exactly `1/2`. -/
theorem expectedScore_symm_sum_one (a b : ℝ) :
    getExpectedScore a b + getExpectedScore b a = 1 ∧
    getExpectedScore a a = 1 / 2 :=
  ⟨getExpectedScore_add a b, getExpectedScore_self a⟩

/-- C5: for all real ratings (including negative ones) `expectedScore`
computes `1 / (1 + 10^((b - a) / 400))`, a value in the open interval
`(0, 1)`; the function is total, with no error conditions. -/
theorem expectedScore_formula_and_range (a b : ℝ) :
    getExpectedScore a b = 1 / (1 + (10 : ℝ) ^ ((b - a) / 400)) ∧
    0 < getExpectedScore a b ∧ getExpectedScore a b < 1 :=
  ⟨rfl, getExpectedScore_pos a b, getExpectedScore_lt_one a b⟩

/-- C7: both deltas returned by `calculateEloChange` have magnitude at most
the K-factor `32`. -/
theorem eloChange_abs_le_32 (p1 p2 : ℤ) (won : Bool) :
    |(calculateEloChange p1 p2 won).player1Change| ≤ 32 ∧
    |(calculateEloChange p1 p2 won).player2Change| ≤ 32 := by
  have key : ∀ (s : ℝ), 0 ≤ s → s ≤ 1 → ∀ a b : ℝ,
      |jsRound (K_FACTOR * (s - getExpectedScore a b))| ≤ 32 := by
    intro s hs0 hs1 a b
    obtain ⟨hlo, hhi⟩ := elo_arg_bounds hs0 hs1 a b
    rw [abs_le]
    constructor
    · exact le_jsRound_of_le (by push_cast; linarith)
    · exact jsRound_le_of_lt (by push_cast; linarith)
  rw [player1Change_eq, player2Change_eq]
  cases won
  · exact ⟨key 0 le_rfl (by norm_num) _ _, key 1 (by norm_num) le_rfl _ _⟩
  · exact ⟨key 1 (by norm_num) le_rfl _ _, key 0 le_rfl (by norm_num) _ _⟩

/-- A winner rated 2000 beating a loser rated 0 receives a ROUNDED delta of
exactly `0`: `round(32 / 100001) = 0`. -/
lemma eloChange_2000_0_change_eq_zero :
    (calculateEloChange 2000 0 true).player1Change = 0 := by
  rw [player1Change_true]
  have he : getExpectedScore ((2000 : ℤ) : ℝ) ((0 : ℤ) : ℝ)
      = 1 / (1 + (10 : ℝ) ^ ((-5 : ℤ))) :=
    getExpectedScore_of_diff 2000 0 (-5) (by norm_num)
  have hzp : (10 : ℝ) ^ ((-5 : ℤ)) = (100000 : ℝ)⁻¹ := by
    norm_num [zpow_neg]
  rw [he, hzp]
  unfold jsRound K_FACTOR
  rw [Int.floor_eq_iff]
  norm_num

/-- C6-counterexample: the claim "for all winner ratings `w1 > w2` and fixed
loser rating `l`, the winner's delta at `(w1, l)` is positive and strictly
smaller than at `(w2, l)`" fails at `w1 = 2000, w2 = 1600, l = 0`: the
higher-rated winner's rounded delta is `0`, not positive (and hence not
strictly smaller than anything nonnegative). -/
theorem winner_delta_monotonicity_counterexample :
    ((1600 : ℤ) < 2000) ∧
    ¬(0 < (calculateEloChange 2000 0 true).player1Change ∧
      (calculateEloChange 2000 0 true).player1Change
        < (calculateEloChange 1600 0 true).player1Change) := by
  refine ⟨by norm_num, ?_⟩
  rw [eloChange_2000_0_change_eq_zero]
  rintro ⟨h, -⟩
  exact lt_irrefl 0 h

/-- C6-amended: holding the loser's rating fixed, the higher-rated winner's
UNROUNDED delta `32 * (1 - e)` is strictly positive and strictly smaller
than the lower-rated winner's; the ROUNDED delta returned by
`calculateEloChange` is nonnegative and weakly smaller (it may tie — and may
be `0` — because distinct unrounded values can round to the same integer). -/
theorem winner_delta_antitone (w1 w2 l : ℤ) (h : w2 < w1) :
    0 < K_FACTOR * (1 - getExpectedScore (w1 : ℝ) (l : ℝ)) ∧
    K_FACTOR * (1 - getExpectedScore (w1 : ℝ) (l : ℝ))
      < K_FACTOR * (1 - getExpectedScore (w2 : ℝ) (l : ℝ)) ∧
    0 ≤ (calculateEloChange w1 l true).player1Change ∧
    (calculateEloChange w1 l true).player1Change
      ≤ (calculateEloChange w2 l true).player1Change := by
  have hK : K_FACTOR = (32 : ℝ) := rfl
  have hR : ((w2 : ℤ) : ℝ) < ((w1 : ℤ) : ℝ) := by exact_mod_cast h
  have hmono := getExpectedScore_strictMono_left hR (l : ℝ)
  have hlt1 := getExpectedScore_lt_one ((w1 : ℤ) : ℝ) ((l : ℤ) : ℝ)
  refine ⟨by rw [hK]; nlinarith, by rw [hK]; nlinarith, ?_, ?_⟩
  · rw [player1Change_true]
    exact jsRound_nonneg (by rw [hK]; nlinarith)
  · rw [player1Change_true, player1Change_true]
    exact jsRound_mono (by rw [hK]; nlinarith)

/-- Witness for C6-amended at `w1 = 1600, w2 = 0, l = 0`. -/
theorem winner_delta_antitone_witness :
    0 < K_FACTOR * (1 - getExpectedScore ((1600 : ℤ) : ℝ) ((0 : ℤ) : ℝ)) ∧
    K_FACTOR * (1 - getExpectedScore ((1600 : ℤ) : ℝ) ((0 : ℤ) : ℝ))
      < K_FACTOR * (1 - getExpectedScore ((0 : ℤ) : ℝ) ((0 : ℤ) : ℝ)) ∧
    0 ≤ (calculateEloChange 1600 0 true).player1Change ∧
    (calculateEloChange 1600 0 true).player1Change
      ≤ (calculateEloChange 0 0 true).player1Change :=
  winner_delta_antitone 1600 0 0 (by norm_num)

/-- The loser's rounded delta at equal ratings `(-5, -5)` is exactly `-16`,
and the returned "new rating" is `max 0 (-5 - 16) = 0`, which is ABOVE the
loser's old rating `-5`. -/
lemma eloChange_neg5_loser :
    (calculateEloChange (-5) (-5) true).player2Change = -16 ∧
    (calculateEloChange (-5) (-5) true).player2NewElo = 0 := by
  have hc : (calculateEloChange (-5) (-5) true).player2Change = -16 := by
    rw [player2Change_true, getExpectedScore_self]
    unfold jsRound K_FACTOR
    rw [Int.floor_eq_iff]
    norm_num
  refine ⟨hc, ?_⟩
  rw [player2NewElo_eq, hc]
  norm_num

/-- C10-counterexample: with negative input ratings the floor at `0` can
RAISE the loser's rating: at ratings `(-5, -5)` with player 1 winning, the
loser's delta is `-16 ≤ 0` as claimed, but the loser's new rating is `0`,
strictly above the old rating `-5`. -/
theorem loser_rating_can_rise_counterexample :
    (calculateEloChange (-5) (-5) true).player2Change ≤ 0 ∧
    ¬((calculateEloChange (-5) (-5) true).player2NewElo ≤ -5) := by
  obtain ⟨hc, hn⟩ := eloChange_neg5_loser
  rw [hc, hn]
  norm_num

/-- C10-amended: the winner's delta is `≥ 0` and the loser's delta is
`≤ 0`; the winner's new rating is never below the old one, and the loser's
new rating is never above the old one PROVIDED the loser's old rating is
nonnegative (as all ratings produced by the system are; for a negative old
rating the floor at `0` lifts the loser to `0`). -/
theorem winner_gains_loser_drops (p1 p2 : ℤ) :
    0 ≤ (calculateEloChange p1 p2 true).player1Change ∧
    (calculateEloChange p1 p2 true).player2Change ≤ 0 ∧
    p1 ≤ (calculateEloChange p1 p2 true).player1NewElo ∧
    (0 ≤ p2 → (calculateEloChange p1 p2 true).player2NewElo ≤ p2) ∧
    (calculateEloChange p1 p2 false).player1Change ≤ 0 ∧
    0 ≤ (calculateEloChange p1 p2 false).player2Change ∧
    p2 ≤ (calculateEloChange p1 p2 false).player2NewElo ∧
    (0 ≤ p1 → (calculateEloChange p1 p2 false).player1NewElo ≤ p1) := by
  have hK : K_FACTOR = (32 : ℝ) := rfl
  have winner_nonneg : ∀ a b : ℤ,
      0 ≤ jsRound (K_FACTOR * (1 - getExpectedScore (a : ℝ) (b : ℝ))) := by
    intro a b
    have := getExpectedScore_lt_one (a : ℝ) (b : ℝ)
    exact jsRound_nonneg (by rw [hK]; nlinarith)
  have loser_nonpos : ∀ a b : ℤ,
      jsRound (K_FACTOR * (0 - getExpectedScore (a : ℝ) (b : ℝ))) ≤ 0 := by
    intro a b
    have := getExpectedScore_pos (a : ℝ) (b : ℝ)
    exact jsRound_nonpos (by rw [hK]; nlinarith)
  have h1 : 0 ≤ (calculateEloChange p1 p2 true).player1Change := by
    rw [player1Change_true]; exact winner_nonneg p1 p2
  have h2 : (calculateEloChange p1 p2 true).player2Change ≤ 0 := by
    rw [player2Change_true]; exact loser_nonpos p2 p1
  have h5 : (calculateEloChange p1 p2 false).player1Change ≤ 0 := by
    rw [player1Change_false]; exact loser_nonpos p1 p2
  have h6 : 0 ≤ (calculateEloChange p1 p2 false).player2Change := by
    rw [player2Change_false]; exact winner_nonneg p2 p1
  refine ⟨h1, h2, ?_, ?_, h5, h6, ?_, ?_⟩
  · rw [player1NewElo_eq]
    exact le_max_of_le_right (by omega)
  · intro hp2
    rw [player2NewElo_eq]
    exact max_le hp2 (by omega)
  · rw [player2NewElo_eq]
    exact le_max_of_le_right (by omega)
  · intro hp1
    rw [player1NewElo_eq]
    exact max_le hp1 (by omega)

/-- C8: `calculateMatchWins` returns exactly the number of records whose
winner identifier equals the target, is `0` on the empty list, and is
invariant under permutation of the list. -/
theorem matchWins_counts_winner (ms ms' : List MatchRecord) (uid : String)
    (hperm : ms.Perm ms') :
    calculateMatchWins ms uid
        = ms.countP (fun m => decide (m.winner = some uid)) ∧
    calculateMatchWins [] uid = 0 ∧
    calculateMatchWins ms uid = calculateMatchWins ms' uid := by
  have hpred : ∀ m : MatchRecord,
      (m.winner == some uid) = decide (m.winner = some uid) := by
    intro m
    by_cases h : m.winner = some uid <;> simp [h]
  refine ⟨?_, rfl, ?_⟩
  · unfold calculateMatchWins
    rw [List.countP_eq_length_filter]
    exact congrArg List.length (List.filter_congr (fun m _ => hpred m))
  · unfold calculateMatchWins
    exact (hperm.filter _).length_eq

/-- Witness for C8 on the two-element list `[won-by-a, unfinished]` and its
reversal. -/
theorem matchWins_counts_winner_witness :
    calculateMatchWins [⟨some "a", "a", "b"⟩, ⟨none, "a", "b"⟩] "a"
        = List.countP (fun m : MatchRecord => decide (m.winner = some "a"))
            [⟨some "a", "a", "b"⟩, ⟨none, "a", "b"⟩] ∧
    calculateMatchWins [] "a" = 0 ∧
    calculateMatchWins [⟨some "a", "a", "b"⟩, ⟨none, "a", "b"⟩] "a"
        = calculateMatchWins [⟨none, "a", "b"⟩, ⟨some "a", "a", "b"⟩] "a" :=
  matchWins_counts_winner
    [⟨some "a", "a", "b"⟩, ⟨none, "a", "b"⟩]
    [⟨none, "a", "b"⟩, ⟨some "a", "a", "b"⟩] "a"
    (List.Perm.swap (⟨none, "a", "b"⟩ : MatchRecord) ⟨some "a", "a", "b"⟩ [])

/-- C9: if the fetched match already carries a completion timestamp, the
completion handler replies `400 "Match already completed"` and issues NO
database writes — and it does so for EVERY rating engine, so the engine is
never consulted; a contest's rating adjustment is applied at most once.
(The hypothesis that the requester is one of the two players reflects the
authorization guard that runs before the completion check.) -/
theorem completeMatch_already_completed_rejected
    (engine : ℤ → ℤ → Bool → EloChangeResult) (userId winnerId : String)
    (m : MatchRow) (t : ℕ) (hcompleted : m.completedAt = some t)
    (hplayer : m.player1Id = userId ∨ m.player2Id = userId) :
    completeMatchHandler engine userId (some m) winnerId
        = (⟨400, some "Match already completed"⟩, []) ∧
    completeMatch userId (some m) winnerId
        = (⟨400, some "Match already completed"⟩, []) := by
  have h1 : ¬(m.player1Id ≠ userId ∧ m.player2Id ≠ userId) := by tauto
  constructor <;> simp [completeMatchHandler, completeMatch, h1, hcompleted]

/-- Witness for C9: a completed match between `"alice"` and `"bob"`,
re-submitted by `"alice"`, is rejected with no writes under an arbitrary
engine and under the deployed engine. -/
theorem completeMatch_already_completed_rejected_witness :
    completeMatchHandler (fun _ _ _ => ⟨0, 0, 0, 0⟩) "alice"
        (some ⟨"m1", "alice", "bob", 1600, 1600, some "alice", some 5⟩)
        "alice"
        = (⟨400, some "Match already completed"⟩, []) ∧
    completeMatch "alice"
        (some ⟨"m1", "alice", "bob", 1600, 1600, some "alice", some 5⟩)
        "alice"
        = (⟨400, some "Match already completed"⟩, []) :=
  completeMatch_already_completed_rejected (fun _ _ _ => ⟨0, 0, 0, 0⟩)
    "alice" "alice" ⟨"m1", "alice", "bob", 1600, 1600, some "alice", some 5⟩
    5 rfl (Or.inl rfl)

/-- Witness for C10-amended at ratings `(1600, 1600)`. -/
theorem winner_gains_loser_drops_witness :
    0 ≤ (calculateEloChange 1600 1600 true).player1Change ∧
    (calculateEloChange 1600 1600 true).player2Change ≤ 0 ∧
    (1600 : ℤ) ≤ (calculateEloChange 1600 1600 true).player1NewElo ∧
    (calculateEloChange 1600 1600 true).player2NewElo ≤ 1600 := by
  obtain ⟨h1, h2, h3, h4, -⟩ := winner_gains_loser_drops 1600 1600
  exact ⟨h1, h2, h3, h4 (by norm_num)⟩
